import Mathlib

/-!
Shallow embedding of `downlinx.py` (geometry model, transform pipeline,
source catalog / fetcher) together with proofs settling the spec claims.

Python `float` arithmetic in the geometry helpers is modelled exactly:
an IEEE-754 binary64 value is a rational, and every operation rounds its
exact rational result to 53 significant bits with round-to-nearest,
ties-to-even (`roundDouble`), which is CPython's behaviour for
`float(int)`, float `/`, `*`, `-`, and also for `int / int` true division
(CPython computes the correctly rounded quotient).  The model covers the
normal, non-overflowing range, which contains every value reached in this
development.  Python `int(...)` applied to a float is truncation toward
zero; Python unbounded `int` is `Int`/`Nat`.  The external effects
(ImageMagick subprocesses, `curl`, the filesystem) are modelled by recording
the command line an operation would run and by passing the relevant
filesystem facts (existence and modification time of the cache file) as
explicit arguments.  Python exceptions (`assert`, `KeyError`, subscripting
`None`, `raise Exception`) are modelled with `Except String`.
-/

namespace Downlinx

/-- Truncation toward zero, the behaviour of Python `int()` on a float. -/
def pyint (q : ℚ) : Int := if 0 ≤ q then ⌊q⌋ else ⌈q⌉

/-- Python `str()` of a natural number: fuel-based decimal rendering,
most significant digit first (`pyStrGo n n` always has enough fuel). -/
def digitCharPy (d : Nat) : Char := Char.ofNat (48 + d)

def pyStrGo : Nat → Nat → List Char
  | 0, _ => []
  | fuel + 1, n =>
    if n < 10 then [digitCharPy n]
    else pyStrGo fuel (n / 10) ++ [digitCharPy (n % 10)]

def pyStr (n : Nat) : String := ⟨pyStrGo (n + 1) n⟩

/-- The characters matched by Python regex `\s` on a `str` (those for
which `str.isspace()` holds): ASCII whitespace, the information separators
U+001C-U+001F, NEL, NBSP, Ogham space mark, the U+2000-U+200A spaces, line
and paragraph separators, narrow no-break space, medium mathematical space
and ideographic space. -/
def pyWhitespace : List Char :=
  [' ', '\t', '\n', '\r', '\x0b', '\x0c', '\x1c', '\x1d', '\x1e', '\x1f',
   '\u0085', '\u00a0', '\u1680', '\u2000', '\u2001', '\u2002', '\u2003',
   '\u2004', '\u2005', '\u2006', '\u2007', '\u2008', '\u2009', '\u200a',
   '\u2028', '\u2029', '\u202f', '\u205f', '\u3000']

/-- Membership in the `\s` character class. -/
def pyIsSpace (c : Char) : Bool := pyWhitespace.contains c

/-- `_has_whitespace` from downlinx.py: `re.search` for `\s`. -/
def _has_whitespace (s : String) : Bool := s.data.any pyIsSpace

/-- The pure part of `_replace_spaces`: Python's
`source_name.replace(' ', '_')`. -/
def pyReplace (s : String) : String :=
  ⟨s.data.map (fun c => if c = ' ' then '_' else c)⟩

/-- `_replace_spaces` from downlinx.py: replace `' '` with `'_'`, then
`_assert_no_whitespace` on the result (an `AssertionError` aborts the run). -/
def _replace_spaces (source_name : String) : Except String String :=
  if _has_whitespace (pyReplace source_name) then Except.error "AssertionError"
  else Except.ok (pyReplace source_name)

/-- A position, in pixels (class `Pos`). -/
structure Pos where
  x : Int
  y : Int
deriving DecidableEq, Repr

/-- A size, in pixels (class `Size`). -/
structure Size where
  w : Int
  h : Int
deriving DecidableEq, Repr

/-- Round a rational to the nearest integer, ties to even, as IEEE-754
rounding does on the scaled significand. -/
def roundHalfEven (x : ℚ) : Int :=
  if x - ⌊x⌋ < 1 / 2 then ⌊x⌋
  else if 1 / 2 < x - ⌊x⌋ then ⌊x⌋ + 1
  else if ⌊x⌋ % 2 = 0 then ⌊x⌋ else ⌊x⌋ + 1

/-- Round a positive rational to 53 significant bits (round to nearest,
ties to even): scale into `[2^52, 2^53)` using the base-2 logarithm, round
the scaled value to an integer significand, and scale back. -/
def roundPos (q : ℚ) : ℚ :=
  (roundHalfEven (q * 2 ^ ((52 : Int) - Int.log 2 q)) : ℚ) *
    2 ^ (Int.log 2 q - (52 : Int))

/-- Exact model of rounding a real (rational) value to an IEEE-754 binary64
double in the normal range: sign-symmetric round-to-nearest-even at 53
bits of precision. -/
def roundDouble (q : ℚ) : ℚ :=
  if q = 0 then 0 else if q < 0 then -roundPos (-q) else roundPos q

/-- Python `float(n)` on an int. -/
def floatOfInt (n : Int) : ℚ := roundDouble (n : ℚ)

/-- Correctly rounded float division (also CPython's `int / int`). -/
def fdiv (x y : ℚ) : ℚ := roundDouble (x / y)

/-- Correctly rounded float multiplication. -/
def fmul (x y : ℚ) : ℚ := roundDouble (x * y)

/-- Correctly rounded float subtraction. -/
def fsub (x y : ℚ) : ℚ := roundDouble (x - y)

/-- `aspect_ratio` from downlinx.py: `float(size.w) / size.h` — the int
`size.h` is converted to float before the float division. -/
def aspect_ratio (size : Size) : ℚ := fdiv (floatOfInt size.w) (floatOfInt size.h)

/-- `scale_factor` from downlinx.py: `int(orig.w * factor)` with a float
`factor` (the ℚ argument is the float's exact value). -/
def scale_factor (orig : Size) (factor : ℚ) : Size :=
  ⟨pyint (fmul (floatOfInt orig.w) factor), pyint (fmul (floatOfInt orig.h) factor)⟩

/-- `scale_to_width` from downlinx.py: `height = int(width / aspect_ratio(orig))`. -/
def scale_to_width (orig : Size) (width : Int) : Size :=
  ⟨width, pyint (fdiv (floatOfInt width) (aspect_ratio orig))⟩

/-- `scale_to_height` from downlinx.py: `width = int(height * aspect_ratio(orig))`. -/
def scale_to_height (orig : Size) (height : Int) : Size :=
  ⟨pyint (fmul (floatOfInt height) (aspect_ratio orig)), height⟩

/-- `scale_to_fit` from downlinx.py. -/
def scale_to_fit (orig bounding_box : Size) : Size :=
  if aspect_ratio bounding_box < aspect_ratio orig then scale_to_width orig bounding_box.w
  else scale_to_height orig bounding_box.h

/-- `add_pos` from downlinx.py. -/
def add_pos (pos1 pos2 : Pos) : Pos := ⟨pos1.x + pos2.x, pos1.y + pos2.y⟩

/-- `centering_offset` from downlinx.py:
`add_pos(frame_offset, Pos(int(frame_size.w/2 - image_size.w/2), int(frame_size.h/2 - image_size.h/2)))`,
where each `/` is Python true division of ints (a correctly rounded
double) and the subtraction is a rounded float subtraction. -/
def centering_offset (image_size frame_size : Size) (frame_offset : Pos := ⟨0, 0⟩) : Pos :=
  add_pos frame_offset
    ⟨pyint (fsub (fdiv (frame_size.w : ℚ) 2) (fdiv (image_size.w : ℚ) 2)),
     pyint (fsub (fdiv (frame_size.h : ℚ) 2) (fdiv (image_size.h : ℚ) 2))⟩

/-- An `Image` handle: the stored file path.  (The `size` attribute is read
from the file by an external `identify` call and plays no role in the
claims, so it is not modelled.) -/
structure Image where
  filepath : String
deriving DecidableEq, Repr

/-- The mutable state of class `Pipeline`: the images directory and the
generated-image counter set up by `__init__`. -/
structure Pipeline where
  images_dir : String
  generated_image_count : Nat
deriving DecidableEq, Repr

/-- `Pipeline.__init__`: `images_dir = os.path.join(pipeline_dir, 'images')`,
counter starts at 0. -/
def Pipeline.init (pipeline_dir : String) : Pipeline :=
  ⟨pipeline_dir ++ "/" ++ "images", 0⟩

/-- `Pipeline._image_path`: `os.path.join(self.images_dir, filename)`. -/
def _image_path (st : Pipeline) (filename : String) : String :=
  st.images_dir ++ "/" ++ filename

/-- `MAGICK_PNG_COLOR` from downlinx.py. -/
def MAGICK_PNG_COLOR : List String := ["-define", "png:color-type=6"]

/-- Result of `Pipeline._new`: the updated pipeline state, the fresh
filename `generated{count}.{image_type}` and its full path. -/
structure NewResult where
  state : Pipeline
  filename : String
  filepath : String
deriving DecidableEq, Repr

/-- `Pipeline._new` from downlinx.py: build `generated{count}.{type}`,
assert the path has no whitespace, increment the counter.  (Creating the
directory and deleting a stale file are filesystem effects with no
observable value here.) -/
def _new (st : Pipeline) (image_type : String) : Except String NewResult :=
  if _has_whitespace
      (_image_path st ("generated" ++ pyStr st.generated_image_count ++ "." ++ image_type)) then
    Except.error "AssertionError"
  else
    Except.ok ⟨{ st with generated_image_count := st.generated_image_count + 1 },
      "generated" ++ pyStr st.generated_image_count ++ "." ++ image_type,
      _image_path st ("generated" ++ pyStr st.generated_image_count ++ "." ++ image_type)⟩

/-- Result of one pipeline transform: the updated state, the output
filename and path, and the argument list handed to `magick(...)`. -/
structure OpResult where
  state : Pipeline
  filename : String
  out_path : String
  cmd : List String
deriving DecidableEq, Repr

/-- `Pipeline.crop` from downlinx.py. -/
def crop (st : Pipeline) (image : Image) (offset : Pos) (size : Size) :
    Except String OpResult :=
  match _new st "png" with
  | Except.error e => Except.error e
  | Except.ok n =>
    Except.ok ⟨n.state, n.filename, n.filepath,
      ["convert", image.filepath, "-crop",
       toString size.w ++ "x" ++ toString size.h ++ "+" ++ toString offset.x ++ "+" ++ toString offset.y]
      ++ MAGICK_PNG_COLOR ++ [n.filepath]⟩

/-- `Pipeline.blank` from downlinx.py. -/
def blank (st : Pipeline) (color : String) (size : Size) : Except String OpResult :=
  match _new st "png" with
  | Except.error e => Except.error e
  | Except.ok n =>
    Except.ok ⟨n.state, n.filename, n.filepath,
      ["convert", "-size", toString size.w ++ "x" ++ toString size.h, "canvas:" ++ color]
      ++ MAGICK_PNG_COLOR ++ [n.filepath]⟩

/-- `Pipeline.place` from downlinx.py. -/
def place (st : Pipeline) (new : Image) (offset : Pos) (base : Image) :
    Except String OpResult :=
  match _new st "png" with
  | Except.error e => Except.error e
  | Except.ok n =>
    Except.ok ⟨n.state, n.filename, n.filepath,
      ["convert", base.filepath, new.filepath, "-geometry",
       "+" ++ toString offset.x ++ "+" ++ toString offset.y, "-composite"]
      ++ MAGICK_PNG_COLOR ++ [n.filepath]⟩

/-- `Pipeline.resize` from downlinx.py. -/
def resize (st : Pipeline) (image : Image) (size : Size) : Except String OpResult :=
  match _new st "png" with
  | Except.error e => Except.error e
  | Except.ok n =>
    Except.ok ⟨n.state, n.filename, n.filepath,
      ["convert", image.filepath, "-resize", toString size.w ++ "x" ++ toString size.h]
      ++ MAGICK_PNG_COLOR ++ [n.filepath]⟩

/-- `Pipeline.to_jpg` from downlinx.py. -/
def to_jpg (st : Pipeline) (image : Image) : Except String OpResult :=
  match _new st "jpg" with
  | Except.error e => Except.error e
  | Except.ok n =>
    Except.ok ⟨n.state, n.filename, n.filepath, ["convert", image.filepath, n.filepath]⟩

/-- One pipeline transform call, for reasoning about arbitrary sequences. -/
inductive PipeOp where
  | cropOp (image : Image) (offset : Pos) (size : Size)
  | blankOp (color : String) (size : Size)
  | placeOp (new : Image) (offset : Pos) (base : Image)
  | resizeOp (image : Image) (size : Size)
  | toJpgOp (image : Image)
deriving DecidableEq, Repr

/-- Dispatch a `PipeOp` to the corresponding pipeline method. -/
def applyOp (st : Pipeline) : PipeOp → Except String OpResult
  | PipeOp.cropOp image offset size => crop st image offset size
  | PipeOp.blankOp color size => blank st color size
  | PipeOp.placeOp new offset base => place st new offset base
  | PipeOp.resizeOp image size => resize st image size
  | PipeOp.toJpgOp image => to_jpg st image

/-- Run a sequence of pipeline transforms, collecting the output filenames;
a raised exception aborts the run (Python propagates it). -/
def runOps : Pipeline → List PipeOp → Pipeline × List String
  | st, [] => (st, [])
  | st, op :: rest =>
    match applyOp st op with
    | Except.error _ => (st, [])
    | Except.ok r => ((runOps r.state rest).1, r.filename :: (runOps r.state rest).2)

/-- A source descriptor from sources.json: display name, size-label to URL
mapping, and refresh interval in seconds. -/
structure Source where
  name : String
  url : List (String × String)
  interval : Int
deriving DecidableEq, Repr

/-- Python dict lookup `d[sz]` on the url mapping. -/
def dictGet (d : List (String × String)) (k : String) : Option String :=
  match d.find? (fun p => p.1 == k) with
  | none => none
  | some p => some p.2

/-- Loop body of `Downlinx._assert_unique_names`, carrying the two sets of
names seen so far. `_replace_spaces` runs before either membership test,
exactly as in the source. -/
def assertUniqueNamesGo : List String → List String → List Source → Except String Unit
  | _, _, [] => Except.ok ()
  | seen, seenNS, s :: rest =>
    match _replace_spaces s.name with
    | Except.error e => Except.error e
    | Except.ok ns =>
      if s.name ∈ seen then Except.error ("Name not unique: " ++ s.name)
      else if ns ∈ seenNS then Except.error ("Spaceless name not unique: " ++ ns)
      else assertUniqueNamesGo (s.name :: seen) (ns :: seenNS) rest

/-- `Downlinx._assert_unique_names` from downlinx.py. -/
def _assert_unique_names (sources : List Source) : Except String Unit :=
  assertUniqueNamesGo [] [] sources

/-- `Downlinx._assert_all_formats_expected` from downlinx.py: every URL must
end in `.jpg`, else an `AssertionError`. -/
def _assert_all_formats_expected (sources : List Source) : Except String Unit :=
  if sources.all (fun s => s.url.all (fun p => p.2.endsWith ".jpg")) then Except.ok ()
  else Except.error "AssertionError"

/-- The validation performed by `Downlinx.__init__` once the sources list is
loaded: `_assert_unique_names` then `_assert_all_formats_expected`. -/
def downlinxInitChecks (sources : List Source) : Except String Unit :=
  match _assert_unique_names sources with
  | Except.error e => Except.error e
  | Except.ok _ => _assert_all_formats_expected sources

/-- `Downlinx._source` from downlinx.py: linear search; Python falls off the
end and returns `None` when the name is absent. -/
def _source (sources : List Source) (source_name : String) : Option Source :=
  sources.find? (fun s => s.name == source_name)

/-- Result of `Downlinx.get`: the URL handed to curl (`none` on a cache
hit), and the returned `Image`. -/
structure GetResult where
  downloaded : Option String
  image : Image
deriving DecidableEq, Repr

/-- The download tail of `Downlinx.get` (`url = source['url'][size]`, then
curl): subscripting `None` is a `TypeError`, a missing size label a
`KeyError`. -/
def getDownload (source? : Option Source) (size filepath : String) (st : Pipeline) :
    Except String (Pipeline × GetResult) :=
  match source? with
  | none => Except.error "TypeError: NoneType is not subscriptable"
  | some source =>
    match dictGet source.url size with
    | none => Except.error ("KeyError: " ++ size)
    | some url => Except.ok (st, ⟨some url, ⟨filepath⟩⟩)

/-- `Downlinx.get` from downlinx.py.  The filesystem facts are passed in:
`mtime` is the cache file's modification time in whole seconds when the
file exists (`none` otherwise) and `now` is the current wall-clock time in
whole seconds.  The source computes the file's age as
`(now - modification_time).seconds`, the seconds *field* of the timedelta,
which for conforming inputs is the elapsed time modulo 86400 (whole days
are discarded) — `Int.emod` matches Python's floor-mod normalisation. -/
def get (sources : List Source) (st : Pipeline) (source_name size : String)
    (mtime : Option Int) (now : Int) : Except String (Pipeline × GetResult) :=
  match _replace_spaces source_name with
  | Except.error e => Except.error e
  | Except.ok ns =>
    if _has_whitespace (_image_path st (ns ++ "_" ++ size ++ ".jpg")) then
      Except.error "AssertionError"
    else
      match mtime with
      | some t =>
        match _source sources source_name with
        | none => Except.error "TypeError: NoneType is not subscriptable"
        | some source =>
          if (now - t) % 86400 < source.interval then
            Except.ok (st, ⟨none, ⟨_image_path st (ns ++ "_" ++ size ++ ".jpg")⟩⟩)
          else
            getDownload (_source sources source_name) size
              (_image_path st (ns ++ "_" ++ size ++ ".jpg")) st
      | none =>
        getDownload (_source sources source_name) size
          (_image_path st (ns ++ "_" ++ size ++ ".jpg")) st

/-! ### Helper lemmas -/

theorem pyint_of_nonneg {q : ℚ} (h : 0 ≤ q) : pyint q = ⌊q⌋ := if_pos h

/-- Decimal value of a digit-character list, used to prove `pyStr` injective. -/
def digitsVal : List Char → Nat
  | [] => 0
  | c :: cs => (c.toNat - 48) * 10 ^ cs.length + digitsVal cs

theorem digitsVal_concat (l : List Char) (c : Char) :
    digitsVal (l ++ [c]) = 10 * digitsVal l + (c.toNat - 48) := by
  induction l with
  | nil => simp [digitsVal]
  | cons d t ih =>
    show digitsVal (d :: (t ++ [c])) = _
    simp only [digitsVal, ih, List.length_append, List.length_singleton]
    ring

theorem digitCharPy_toNat : ∀ d < 10, (digitCharPy d).toNat = 48 + d := by decide

theorem pyStrGo_val : ∀ fuel n, n < fuel → digitsVal (pyStrGo fuel n) = n := by
  intro fuel
  induction fuel with
  | zero => intro n h; omega
  | succ f ih =>
    intro n h
    unfold pyStrGo
    split
    · rename_i h10
      show digitsVal [digitCharPy n] = n
      simp only [digitsVal, List.length_nil, pow_zero]
      rw [digitCharPy_toNat n h10]
      omega
    · rename_i h10
      push_neg at h10
      rw [digitsVal_concat, ih (n / 10) (by omega),
        digitCharPy_toNat (n % 10) (Nat.mod_lt n (by omega))]
      omega

theorem pyStr_injective {n m : Nat} (h : pyStr n = pyStr m) : n = m := by
  have hd : pyStrGo (n + 1) n = pyStrGo (m + 1) m := congrArg String.data h
  have h1 := pyStrGo_val (n + 1) n (Nat.lt_succ_self n)
  have h2 := pyStrGo_val (m + 1) m (Nat.lt_succ_self m)
  rw [hd, h2] at h1
  exact h1.symm

theorem generated_name_inj {i j : Nat} {ei ej : String}
    (hei : ei = "png" ∨ ei = "jpg") (hej : ej = "png" ∨ ej = "jpg")
    (h : "generated" ++ pyStr i ++ "." ++ ei = "generated" ++ pyStr j ++ "." ++ ej) :
    i = j := by
  have hd := congrArg String.data h
  simp only [String.data_append, List.append_assoc] at hd
  have hd2 : (pyStr i).data ++ (".".data ++ ei.data) =
      (pyStr j).data ++ (".".data ++ ej.data) := List.append_cancel_left hd
  have hlei : ei.data.length = 3 := by
    cases hei <;> simp_all
  have hlej : ej.data.length = 3 := by
    cases hej <;> simp_all
  have hlen : (".".data ++ ei.data).length = (".".data ++ ej.data).length := by
    simp [hlei, hlej]
  have hpi : (pyStr i).data = (pyStr j).data := (List.append_inj' hd2 hlen).1
  exact pyStr_injective (String.ext hpi)

/-- `_new` on success: the counter advances by one and the fresh filename is
`generated{count}.{image_type}`. -/
theorem _new_ok {st : Pipeline} {t : String} {n : NewResult}
    (h : _new st t = Except.ok n) :
    n.state = { st with generated_image_count := st.generated_image_count + 1 } ∧
    n.filename = "generated" ++ pyStr st.generated_image_count ++ "." ++ t ∧
    n.filepath = _image_path st n.filename := by
  unfold _new at h
  split at h
  · exact absurd h (by simp)
  · injection h with h'
    subst h'
    exact ⟨rfl, rfl, rfl⟩

/-- Every transform on success advances the counter by exactly one and names
its output `generated{count}.png` or `generated{count}.jpg`. -/
theorem applyOp_ok {st : Pipeline} {op : PipeOp} {r : OpResult}
    (h : applyOp st op = Except.ok r) :
    r.state = { st with generated_image_count := st.generated_image_count + 1 } ∧
    ∃ e, (e = "png" ∨ e = "jpg") ∧
      r.filename = "generated" ++ pyStr st.generated_image_count ++ "." ++ e := by
  cases op with
  | cropOp image offset size =>
    unfold applyOp crop at h
    cases hn : _new st "png" with
    | error e => rw [hn] at h; cases h
    | ok n =>
      rw [hn] at h
      cases h
      obtain ⟨h1, h2, _⟩ := _new_ok hn
      exact ⟨h1, "png", Or.inl rfl, h2⟩
  | blankOp color size =>
    unfold applyOp blank at h
    cases hn : _new st "png" with
    | error e => rw [hn] at h; cases h
    | ok n =>
      rw [hn] at h
      cases h
      obtain ⟨h1, h2, _⟩ := _new_ok hn
      exact ⟨h1, "png", Or.inl rfl, h2⟩
  | placeOp new offset base =>
    unfold applyOp place at h
    cases hn : _new st "png" with
    | error e => rw [hn] at h; cases h
    | ok n =>
      rw [hn] at h
      cases h
      obtain ⟨h1, h2, _⟩ := _new_ok hn
      exact ⟨h1, "png", Or.inl rfl, h2⟩
  | resizeOp image size =>
    unfold applyOp resize at h
    cases hn : _new st "png" with
    | error e => rw [hn] at h; cases h
    | ok n =>
      rw [hn] at h
      cases h
      obtain ⟨h1, h2, _⟩ := _new_ok hn
      exact ⟨h1, "png", Or.inl rfl, h2⟩
  | toJpgOp image =>
    unfold applyOp to_jpg at h
    cases hn : _new st "jpg" with
    | error e => rw [hn] at h; cases h
    | ok n =>
      rw [hn] at h
      cases h
      obtain ⟨h1, h2, _⟩ := _new_ok hn
      exact ⟨h1, "jpg", Or.inr rfl, h2⟩

/-- Running any op sequence from any state: the final counter is the start
counter plus the number of successful allocations, and the `N`-th collected
filename is `generated{start + N}.{png or jpg}`. -/
theorem runOps_spec (ops : List PipeOp) : ∀ st : Pipeline,
    (runOps st ops).1.generated_image_count =
      st.generated_image_count + (runOps st ops).2.length ∧
    ∀ N : Nat, N < (runOps st ops).2.length →
      ∃ e, (e = "png" ∨ e = "jpg") ∧
        (runOps st ops).2.get? N =
          some ("generated" ++ pyStr (st.generated_image_count + N) ++ "." ++ e) := by
  induction ops with
  | nil =>
    intro st
    constructor
    · simp [runOps]
    · intro N h
      simp [runOps] at h
  | cons op rest ih =>
    intro st
    cases hap : applyOp st op with
    | error e =>
      simp only [runOps, hap]
      constructor
      · simp
      · intro N h
        simp at h
    | ok r =>
      obtain ⟨hstate, e0, he0, hfn⟩ := applyOp_ok hap
      obtain ⟨ih1, ih2⟩ := ih r.state
      simp only [runOps, hap]
      constructor
      · rw [ih1, hstate]
        simp only [List.length_cons]
        omega
      · intro N h
        cases N with
        | zero =>
          refine ⟨e0, he0, ?_⟩
          simpa using hfn
        | succ N' =>
          have h' : N' < (runOps r.state rest).2.length := by
            simpa using h
          obtain ⟨e, he, hget⟩ := ih2 N' h'
          have hcount : r.state.generated_image_count = st.generated_image_count + 1 := by
            rw [hstate]
          rw [hcount] at hget
          have harith : st.generated_image_count + 1 + N' =
              st.generated_image_count + (N' + 1) := by omega
          rw [harith] at hget
          exact ⟨e, he, hget⟩

/-! ### Claim C2 -/

/-- C2: within one pipeline instance the generated-image counter advances by
exactly one per operation (so it never decreases), and any sequence of the
five transforms allocates distinct output filenames, the `N`-th allocation
being `generated{N}.{ext}`. -/
theorem C2_counter_names_distinct (pipeline_dir : String) (ops : List PipeOp) :
    (runOps (Pipeline.init pipeline_dir) ops).1.generated_image_count =
      (runOps (Pipeline.init pipeline_dir) ops).2.length ∧
    (∀ N : Nat, N < (runOps (Pipeline.init pipeline_dir) ops).2.length →
      ∃ e, (e = "png" ∨ e = "jpg") ∧
        (runOps (Pipeline.init pipeline_dir) ops).2.get? N =
          some ("generated" ++ pyStr N ++ "." ++ e)) ∧
    (runOps (Pipeline.init pipeline_dir) ops).2.Pairwise (fun a b => a ≠ b) := by
  obtain ⟨h1, h2⟩ := runOps_spec ops (Pipeline.init pipeline_dir)
  have hc : (Pipeline.init pipeline_dir).generated_image_count = 0 := rfl
  rw [hc] at h1 h2
  simp only [Nat.zero_add] at h1 h2
  refine ⟨h1, h2, ?_⟩
  rw [List.pairwise_iff_get]
  intro i j hij
  obtain ⟨ei, hei, hgi⟩ := h2 i.val i.isLt
  obtain ⟨ej, hej, hgj⟩ := h2 j.val j.isLt
  have hi : (runOps (Pipeline.init pipeline_dir) ops).2.get? i.val =
      some ((runOps (Pipeline.init pipeline_dir) ops).2.get i) :=
    List.get?_eq_get i.isLt
  have hj : (runOps (Pipeline.init pipeline_dir) ops).2.get? j.val =
      some ((runOps (Pipeline.init pipeline_dir) ops).2.get j) :=
    List.get?_eq_get j.isLt
  have hgi' := Option.some.inj (hi.symm.trans hgi)
  have hgj' := Option.some.inj (hj.symm.trans hgj)
  intro heq
  rw [heq, hgj'] at hgi'
  have : j.val = i.val := generated_name_inj hej hei hgi'
  omega

/-- Witness for C2: a concrete two-op run. -/
theorem C2_counter_names_distinct_witness :
    ∃ e, (e = "png" ∨ e = "jpg") ∧
      (runOps (Pipeline.init "p") [PipeOp.blankOp "black" ⟨4, 4⟩,
        PipeOp.toJpgOp ⟨"x.png"⟩]).2.get? 0 =
        some ("generated" ++ pyStr 0 ++ "." ++ e) :=
  (C2_counter_names_distinct "p"
    [PipeOp.blankOp "black" ⟨4, 4⟩, PipeOp.toJpgOp ⟨"x.png"⟩]).2.1 0 (by decide)

/-! ### Lemmas about the binary64 rounding model -/

theorem rhe_sub_abs (x : ℚ) : |(roundHalfEven x : ℚ) - x| ≤ 1 / 2 := by
  have hfl : (⌊x⌋ : ℚ) ≤ x := Int.floor_le x
  have hfu : x < ⌊x⌋ + 1 := Int.lt_floor_add_one x
  unfold roundHalfEven
  split
  · rename_i h
    rw [abs_le]
    constructor <;> linarith
  · rename_i h
    push_neg at h
    split
    · rename_i h2
      push_cast
      rw [abs_le]
      constructor <;> linarith
    · rename_i h2
      push_neg at h2
      split
      · rw [abs_le]
        constructor <;> linarith
      · push_cast
        rw [abs_le]
        constructor <;> linarith

theorem rhe_intCast (m : Int) : roundHalfEven (m : ℚ) = m := by
  unfold roundHalfEven
  rw [Int.floor_intCast, if_pos]
  norm_num

theorem roundPos_eq_of_int {q : ℚ} (m : Int)
    (hm : q * 2 ^ ((52 : Int) - Int.log 2 q) = (m : ℚ)) : roundPos q = q := by
  unfold roundPos
  rw [hm, rhe_intCast, ← hm, mul_assoc, ← zpow_add₀ (by norm_num : (2:ℚ) ≠ 0)]
  rw [(by ring : (52 : Int) - Int.log 2 q + (Int.log 2 q - 52) = 0)]
  rw [zpow_zero, mul_one]

theorem roundPos_bounds {q : ℚ} (hq : 0 < q) :
    q - q * (1 / 9007199254740992) ≤ roundPos q ∧
    roundPos q ≤ q + q * (1 / 9007199254740992) := by
  have habs := rhe_sub_abs (q * 2 ^ ((52 : Int) - Int.log 2 q))
  have hpow : (0:ℚ) < 2 ^ (Int.log 2 q - (52 : Int)) := zpow_pos (by norm_num) _
  have hqeq : q * 2 ^ ((52 : Int) - Int.log 2 q) * 2 ^ (Int.log 2 q - (52 : Int)) = q := by
    rw [mul_assoc, ← zpow_add₀ (by norm_num : (2:ℚ) ≠ 0)]
    rw [(by ring : (52 : Int) - Int.log 2 q + (Int.log 2 q - 52) = 0)]
    rw [zpow_zero, mul_one]
  have hdiff : roundPos q - q =
      ((roundHalfEven (q * 2 ^ ((52 : Int) - Int.log 2 q)) : ℚ) -
        q * 2 ^ ((52 : Int) - Int.log 2 q)) * 2 ^ (Int.log 2 q - (52 : Int)) := by
    unfold roundPos
    rw [sub_mul, hqeq]
  have habs2 : |roundPos q - q| ≤ (1 / 2) * 2 ^ (Int.log 2 q - (52 : Int)) := by
    rw [hdiff, abs_mul, abs_of_pos hpow]
    exact mul_le_mul_of_nonneg_right habs (le_of_lt hpow)
  have hlog : (2:ℚ) ^ (Int.log 2 q) ≤ q := by
    exact_mod_cast Int.zpow_log_le_self (b := 2) (by norm_num) hq
  have hconv : (1 / 2 : ℚ) * 2 ^ (Int.log 2 q - (52 : Int)) =
      2 ^ (Int.log 2 q) * (1 / 9007199254740992) := by
    rw [(by norm_num : (1/2 : ℚ) = 2 ^ (-1 : Int)),
      ← zpow_add₀ (by norm_num : (2:ℚ) ≠ 0),
      (by ring : (-1 : Int) + (Int.log 2 q - 52) = Int.log 2 q + (-53)),
      zpow_add₀ (by norm_num : (2:ℚ) ≠ 0)]
    norm_num
  have hfin : |roundPos q - q| ≤ q * (1 / 9007199254740992) := by
    refine le_trans habs2 ?_
    rw [hconv]
    exact mul_le_mul_of_nonneg_right hlog (by norm_num)
  rw [abs_le] at hfin
  constructor <;> linarith [hfin.1, hfin.2]

theorem roundDouble_pos_eq {q : ℚ} (hq : 0 < q) : roundDouble q = roundPos q := by
  unfold roundDouble
  rw [if_neg (ne_of_gt hq), if_neg (not_lt.mpr (le_of_lt hq))]

theorem roundDouble_bounds {q : ℚ} (hq : 0 < q) :
    q - q * (1 / 9007199254740992) ≤ roundDouble q ∧
    roundDouble q ≤ q + q * (1 / 9007199254740992) := by
  rw [roundDouble_pos_eq hq]
  exact roundPos_bounds hq

theorem roundDouble_pos {q : ℚ} (hq : 0 < q) : 0 < roundDouble q := by
  have h := (roundDouble_bounds hq).1
  nlinarith

theorem int_log_eq {q : ℚ} {l : Int} (hq : 0 < q)
    (h1 : (2:ℚ) ^ l ≤ q) (h2 : q < 2 ^ (l + 1)) : Int.log 2 q = l := by
  have hL1 : (2:ℚ) ^ (Int.log 2 q) ≤ q := by
    exact_mod_cast Int.zpow_log_le_self (b := 2) (by norm_num) hq
  have hL2 : q < (2:ℚ) ^ (Int.log 2 q + 1) := by
    exact_mod_cast Int.lt_zpow_succ_log_self (b := 2) (by norm_num) q
  have i1 : Int.log 2 q < l + 1 :=
    (zpow_lt_zpow_iff_right₀ (by norm_num : (1:ℚ) < 2)).mp (lt_of_le_of_lt hL1 h2)
  have i2 : l < Int.log 2 q + 1 :=
    (zpow_lt_zpow_iff_right₀ (by norm_num : (1:ℚ) < 2)).mp (lt_of_le_of_lt h1 hL2)
  omega

theorem roundDouble_half_int (n : Int) (h0 : 0 < n) (h1 : n < 2 ^ 53) :
    roundDouble ((n : ℚ) / 2) = (n : ℚ) / 2 := by
  have hn' : (0:ℚ) < (n:ℚ) := by exact_mod_cast h0
  have hq : (0:ℚ) < (n:ℚ) / 2 := by positivity
  rw [roundDouble_pos_eq hq]
  have hup : (n:ℚ) / 2 < 2 ^ (52 : Int) := by
    have h1' : (n:ℚ) < 2 ^ (53:ℕ) := by exact_mod_cast h1
    norm_num at h1' ⊢
    linarith
  have hlle : Int.log 2 ((n:ℚ) / 2) ≤ 51 := by
    by_contra hc
    push_neg at hc
    have hlow : (2:ℚ) ^ (Int.log 2 ((n:ℚ) / 2)) ≤ (n:ℚ) / 2 := by
      exact_mod_cast Int.zpow_log_le_self (b := 2) (by norm_num) hq
    have h52 : (2:ℚ) ^ (52 : Int) ≤ (2:ℚ) ^ (Int.log 2 ((n:ℚ) / 2)) :=
      (zpow_le_zpow_iff_right₀ (by norm_num : (1:ℚ) < 2)).mpr (by omega)
    linarith
  apply roundPos_eq_of_int (n * 2 ^ ((51 - Int.log 2 ((n:ℚ) / 2)).toNat))
  have hnn : (0:Int) ≤ 51 - Int.log 2 ((n:ℚ) / 2) := by omega
  push_cast
  rw [← zpow_natCast (2:ℚ) ((51 - Int.log 2 ((n:ℚ) / 2)).toNat), Int.toNat_of_nonneg hnn]
  have hsplit : (2:ℚ) ^ ((52 : Int) - Int.log 2 ((n:ℚ) / 2)) =
      2 * 2 ^ ((51 : Int) - Int.log 2 ((n:ℚ) / 2)) := by
    rw [← zpow_one_add₀ (by norm_num : (2:ℚ) ≠ 0)]
    rw [(by ring : (1 : Int) + (51 - Int.log 2 ((n:ℚ) / 2)) = 52 - Int.log 2 ((n:ℚ) / 2))]
  rw [hsplit]
  ring

theorem roundDouble_half_int' (n : Int) (h1 : n.natAbs < 2 ^ 53) :
    roundDouble ((n : ℚ) / 2) = (n : ℚ) / 2 := by
  rcases lt_trichotomy n 0 with hn | hn | hn
  · have hnq : (n:ℚ) < 0 := by exact_mod_cast hn
    have hq : (n:ℚ) / 2 < 0 := by linarith
    unfold roundDouble
    rw [if_neg (ne_of_lt hq), if_pos hq]
    have h2 : -((n:ℚ) / 2) = ((-n : Int) : ℚ) / 2 := by push_cast; ring
    have hpos : (0:ℚ) < ((-n : Int) : ℚ) / 2 := by
      have : (0:ℚ) < ((-n : Int) : ℚ) := by exact_mod_cast (by omega : (0:Int) < -n)
      linarith
    have h3 := roundDouble_half_int (-n) (by omega)
      (by have h1' := h1; norm_num at h1' ⊢; omega)
    rw [roundDouble_pos_eq hpos] at h3
    rw [h2, h3]
    push_cast
    ring
  · subst hn
    norm_num [roundDouble]
  · exact roundDouble_half_int n hn (by have h1' := h1; norm_num at h1' ⊢; omega)

theorem roundDouble_int_exact (n : Int) (h0 : 0 < n) (h1 : n < 2 ^ 52) :
    roundDouble (n : ℚ) = n := by
  have h3 := roundDouble_half_int (2 * n) (by omega)
    (by have h1' := h1; norm_num at h1' ⊢; omega)
  rw [(by push_cast; ring : ((2 * n : Int) : ℚ) / 2 = (n : ℚ))] at h3
  exact h3

theorem pyint_intCast (n : Int) : pyint (n : ℚ) = n := by
  unfold pyint
  split
  · exact Int.floor_intCast n
  · exact Int.ceil_intCast n

/-- The base-2 exponent of `9007199254740995/2` (= 2^52 + 1.5). -/
theorem log_key1 : Int.log 2 ((9007199254740995:ℚ) / 2) = 52 := by
  apply int_log_eq (by norm_num) (by norm_num) (by norm_num)

/-- Rounding the significand of `2^52 + 1.5`: the tie goes to the even
neighbour `2^52 + 2`. -/
theorem rhe_key : roundHalfEven ((9007199254740995:ℚ) / 2) = 4503599627370498 := by
  have hfl : ⌊(9007199254740995:ℚ) / 2⌋ = 4503599627370497 := by
    rw [Int.floor_eq_iff]
    constructor
    · norm_num
    · norm_num
  unfold roundHalfEven
  rw [hfl, if_neg (by norm_num), if_neg (by norm_num), if_neg (by norm_num)]
  norm_num

theorem rd_key1 : roundDouble ((9007199254740995:ℚ) / 2) = 4503599627370498 := by
  rw [roundDouble_pos_eq (by norm_num)]
  unfold roundPos
  rw [log_key1]
  rw [(by norm_num : (52 : Int) - 52 = 0), zpow_zero]
  simp only [mul_one]
  rw [rhe_key]
  norm_num

/-- `float(2^53 + 3)` rounds up to `2^53 + 4` (tie to even). -/
theorem rd_key2 : roundDouble (9007199254740995:ℚ) = 9007199254740996 := by
  rw [roundDouble_pos_eq (by norm_num)]
  unfold roundPos
  have hlog : Int.log 2 (9007199254740995:ℚ) = 53 :=
    int_log_eq (by norm_num) (by norm_num) (by norm_num)
  rw [hlog]
  rw [(by norm_num : (9007199254740995:ℚ) * 2 ^ ((52 : Int) - 53) = (9007199254740995:ℚ) / 2)]
  rw [rhe_key]
  rw [(by norm_num : (53 : Int) - 52 = 1), zpow_one]
  norm_num

/-- `2^53 + 4` is exactly representable. -/
theorem rd_key3 : roundDouble (9007199254740996:ℚ) = 9007199254740996 := by
  rw [roundDouble_pos_eq (by norm_num)]
  apply roundPos_eq_of_int 4503599627370498
  have hlog : Int.log 2 (9007199254740996:ℚ) = 53 :=
    int_log_eq (by norm_num) (by norm_num) (by norm_num)
  rw [hlog]
  norm_num

/-! ### Claim C5 -/

/-- C5 counterexample: at `S = B = (2^53 + 3, 1)` the program converts the
width to float, rounding it up to `2^53 + 4`, takes the `scale_to_height`
branch (both aspect ratios are the same float) and returns a width of
`9007199254740996 > B.w`, violating the claimed bound `w ≤ B.w`. -/
theorem C5_scale_to_fit_counterexample :
    (0 : Int) < 9007199254740995 ∧ (0 : Int) < 1 ∧
    (scale_to_fit ⟨9007199254740995, 1⟩ ⟨9007199254740995, 1⟩).w = 9007199254740996 ∧
    ¬ (scale_to_fit ⟨9007199254740995, 1⟩ ⟨9007199254740995, 1⟩).w ≤ 9007199254740995 := by
  have hF1 : floatOfInt 1 = 1 := by
    unfold floatOfInt
    have := roundDouble_int_exact 1 (by norm_num) (by norm_num)
    push_cast at this ⊢
    exact this
  have hFbig : floatOfInt 9007199254740995 = 9007199254740996 := by
    unfold floatOfInt
    rw [(by push_cast; norm_num : ((9007199254740995 : Int) : ℚ) = (9007199254740995:ℚ))]
    exact rd_key2
  have haspect : aspect_ratio ⟨9007199254740995, 1⟩ = 9007199254740996 := by
    unfold aspect_ratio fdiv
    rw [(rfl : (⟨9007199254740995, 1⟩ : Size).w = 9007199254740995),
      (rfl : (⟨9007199254740995, 1⟩ : Size).h = 1), hFbig, hF1, div_one]
    exact rd_key3
  have hbranch : scale_to_fit ⟨9007199254740995, 1⟩ ⟨9007199254740995, 1⟩ =
      scale_to_height ⟨9007199254740995, 1⟩ 1 := by
    unfold scale_to_fit
    rw [if_neg (lt_irrefl _)]
  have hval : (scale_to_height ⟨9007199254740995, 1⟩ 1).w = 9007199254740996 := by
    unfold scale_to_height
    rw [(rfl : (⟨pyint (fmul (floatOfInt 1) (aspect_ratio ⟨9007199254740995, 1⟩)), 1⟩ : Size).w
      = pyint (fmul (floatOfInt 1) (aspect_ratio ⟨9007199254740995, 1⟩)))]
    rw [hF1, haspect]
    unfold fmul
    rw [one_mul, rd_key3]
    rw [(by push_cast; norm_num : (9007199254740996:ℚ) = ((9007199254740996 : Int) : ℚ)),
      pyint_intCast]
  refine ⟨by norm_num, by norm_num, ?_, ?_⟩
  · rw [hbranch, hval]
  · rw [hbranch, hval]
    norm_num

/-- C5 (amended): for bounding boxes with positive components of at most
`2^26` pixels per axis (far beyond any real display), `scale_to_fit`
returns a size with `w ≤ B.w` and `h ≤ B.h` and equality on the
constraining axis, the float rounding error being far below one pixel;
the original unbounded claim fails at sizes of magnitude `2^53`. -/
theorem C5_scale_to_fit_bounds (S B : Size)
    (hSw : 0 < S.w) (hSh : 0 < S.h) (hBw : 0 < B.w) (hBh : 0 < B.h)
    (hBw2 : B.w ≤ 2 ^ 26) (hBh2 : B.h ≤ 2 ^ 26) :
    (scale_to_fit S B).w ≤ B.w ∧ (scale_to_fit S B).h ≤ B.h ∧
    ((scale_to_fit S B).w = B.w ∨ (scale_to_fit S B).h = B.h) := by
  have hSw' : (0:ℚ) < (S.w:ℚ) := by exact_mod_cast hSw
  have hSh' : (0:ℚ) < (S.h:ℚ) := by exact_mod_cast hSh
  have hBw' : (0:ℚ) < (B.w:ℚ) := by exact_mod_cast hBw
  have hBh' : (0:ℚ) < (B.h:ℚ) := by exact_mod_cast hBh
  have hBwQ : (B.w:ℚ) ≤ 67108864 := by
    have h' : B.w ≤ 67108864 := by norm_num at hBw2; exact hBw2
    exact_mod_cast h'
  have hBhQ : (B.h:ℚ) ≤ 67108864 := by
    have h' : B.h ≤ 67108864 := by norm_num at hBh2; exact hBh2
    exact_mod_cast h'
  have haS : 0 < aspect_ratio S := by
    unfold aspect_ratio fdiv floatOfInt
    exact roundDouble_pos (div_pos (roundDouble_pos hSw') (roundDouble_pos hSh'))
  have hFBw : floatOfInt B.w = (B.w:ℚ) := by
    unfold floatOfInt
    exact roundDouble_int_exact B.w hBw (by norm_num at hBw2 ⊢; omega)
  have hFBh : floatOfInt B.h = (B.h:ℚ) := by
    unfold floatOfInt
    exact roundDouble_int_exact B.h hBh (by norm_num at hBh2 ⊢; omega)
  have haBeq : aspect_ratio B = roundDouble ((B.w:ℚ) / (B.h:ℚ)) := by
    unfold aspect_ratio fdiv
    rw [hFBw, hFBh]
  have hrB0 : 0 < (B.w:ℚ) / (B.h:ℚ) := div_pos hBw' hBh'
  have haBb := roundDouble_bounds hrB0
  rw [← haBeq] at haBb
  unfold scale_to_fit
  split
  · rename_i hlt
    simp only [scale_to_width]
    refine ⟨le_refl _, ?_, Or.inl trivial⟩
    rw [hFBw]
    unfold fdiv
    have hq1 : 0 < (B.w:ℚ) / aspect_ratio S := div_pos hBw' haS
    have hvb := roundDouble_bounds hq1
    have hfac : (0:ℚ) < 1 - 1 / 9007199254740992 := by norm_num
    have hprod : (0:ℚ) < ((B.w:ℚ) / (B.h:ℚ)) * (1 - 1 / 9007199254740992) :=
      mul_pos hrB0 hfac
    have h1' : ((B.w:ℚ) / (B.h:ℚ)) * (1 - 1 / 9007199254740992) < aspect_ratio S := by
      have hring : ((B.w:ℚ) / (B.h:ℚ)) * (1 - 1 / 9007199254740992) =
          (B.w:ℚ) / (B.h:ℚ) - ((B.w:ℚ) / (B.h:ℚ)) * (1 / 9007199254740992) := by
        ring
      rw [hring]
      exact lt_of_le_of_lt haBb.1 hlt
    have hq1lt : (B.w:ℚ) / aspect_ratio S <
        (B.w:ℚ) / (((B.w:ℚ) / (B.h:ℚ)) * (1 - 1 / 9007199254740992)) :=
      div_lt_div_of_pos_left hBw' hprod h1'
    have hsimpl : (B.w:ℚ) / (((B.w:ℚ) / (B.h:ℚ)) * (1 - 1 / 9007199254740992)) =
        (B.h:ℚ) / (1 - 1 / 9007199254740992) := by
      have hw0 : (B.w:ℚ) ≠ 0 := ne_of_gt hBw'
      have hh0 : (B.h:ℚ) ≠ 0 := ne_of_gt hBh'
      have hf0 : (1 - 1 / 9007199254740992 : ℚ) ≠ 0 := ne_of_gt hfac
      field_simp
      ring
    rw [hsimpl] at hq1lt
    have hδ : (0:ℚ) < 1 / 9007199254740992 := by norm_num
    have hstep : ((B.w:ℚ) / aspect_ratio S) * (1 / 9007199254740992) <
        ((B.h:ℚ) / (1 - 1 / 9007199254740992)) * (1 / 9007199254740992) :=
      mul_lt_mul_of_pos_right hq1lt hδ
    have hM : (B.h:ℚ) / (1 - 1 / 9007199254740992) +
        ((B.h:ℚ) / (1 - 1 / 9007199254740992)) * (1 / 9007199254740992) ≤ (B.h:ℚ) + 1 := by
      have hf0 : (1 - 1 / 9007199254740992 : ℚ) ≠ 0 := ne_of_gt hfac
      have hMeq : (B.h:ℚ) / (1 - 1 / 9007199254740992) +
          ((B.h:ℚ) / (1 - 1 / 9007199254740992)) * (1 / 9007199254740992) =
          ((B.h:ℚ) * (1 + 1 / 9007199254740992)) / (1 - 1 / 9007199254740992) := by
        field_simp
        ring
      rw [hMeq, div_le_iff₀ hfac]
      nlinarith [hBhQ]
    have hfin : roundDouble ((B.w:ℚ) / aspect_ratio S) < (B.h:ℚ) + 1 := by
      linarith [hvb.2]
    have hv0 : (0:ℚ) ≤ roundDouble ((B.w:ℚ) / aspect_ratio S) := by
      have hq1fac : (B.w:ℚ) / aspect_ratio S * (1 - 1 / 9007199254740992) =
          (B.w:ℚ) / aspect_ratio S -
            ((B.w:ℚ) / aspect_ratio S) * (1 / 9007199254740992) := by
        ring
      linarith [mul_pos hq1 hfac, hvb.1, hq1fac]
    unfold pyint
    rw [if_pos hv0]
    have hcast : roundDouble ((B.w:ℚ) / aspect_ratio S) < ((B.h + 1 : Int) : ℚ) := by
      push_cast
      linarith
    have hfl := Int.floor_lt.mpr hcast
    omega
  · rename_i hge
    push_neg at hge
    simp only [scale_to_height]
    refine ⟨?_, le_refl _, Or.inr trivial⟩
    rw [hFBh]
    unfold fmul
    have hq2 : 0 < (B.h:ℚ) * aspect_ratio S := mul_pos hBh' haS
    have hvb := roundDouble_bounds hq2
    have hq2ub : (B.h:ℚ) * aspect_ratio S ≤
        (B.w:ℚ) + (B.w:ℚ) * (1 / 9007199254740992) := by
      have h2 : (B.h:ℚ) * ((B.w:ℚ) / (B.h:ℚ) +
          ((B.w:ℚ) / (B.h:ℚ)) * (1 / 9007199254740992)) =
          (B.w:ℚ) + (B.w:ℚ) * (1 / 9007199254740992) := by
        field_simp
        ring
      calc (B.h:ℚ) * aspect_ratio S
          ≤ (B.h:ℚ) * ((B.w:ℚ) / (B.h:ℚ) +
              ((B.w:ℚ) / (B.h:ℚ)) * (1 / 9007199254740992)) :=
            mul_le_mul_of_nonneg_left (le_trans hge haBb.2) (le_of_lt hBh')
        _ = _ := h2
    have hfin : roundDouble ((B.h:ℚ) * aspect_ratio S) < (B.w:ℚ) + 1 := by
      have hstep : ((B.h:ℚ) * aspect_ratio S) * (1 / 9007199254740992) ≤
          ((B.w:ℚ) + (B.w:ℚ) * (1 / 9007199254740992)) * (1 / 9007199254740992) :=
        mul_le_mul_of_nonneg_right hq2ub (by norm_num)
      nlinarith [hvb.2, hBwQ]
    have hv0 : (0:ℚ) ≤ roundDouble ((B.h:ℚ) * aspect_ratio S) := by
      have hfac : (0:ℚ) < 1 - 1 / 9007199254740992 := by norm_num
      have hq2fac : (B.h:ℚ) * aspect_ratio S * (1 - 1 / 9007199254740992) =
          (B.h:ℚ) * aspect_ratio S -
            ((B.h:ℚ) * aspect_ratio S) * (1 / 9007199254740992) := by
        ring
      linarith [mul_pos hq2 hfac, hvb.1, hq2fac]
    unfold pyint
    rw [if_pos hv0]
    have hcast : roundDouble ((B.h:ℚ) * aspect_ratio S) < ((B.w + 1 : Int) : ℚ) := by
      push_cast
      linarith
    have hfl := Int.floor_lt.mpr hcast
    omega

/-- Witness for the amended C5 at the spec's own example
`scale_to_fit (1000, 500) (800, 800)`. -/
theorem C5_scale_to_fit_bounds_witness :
    (scale_to_fit ⟨1000, 500⟩ ⟨800, 800⟩).w ≤ (800 : Int) ∧
    (scale_to_fit ⟨1000, 500⟩ ⟨800, 800⟩).h ≤ (800 : Int) ∧
    ((scale_to_fit ⟨1000, 500⟩ ⟨800, 800⟩).w = (800 : Int) ∨
     (scale_to_fit ⟨1000, 500⟩ ⟨800, 800⟩).h = (800 : Int)) :=
  C5_scale_to_fit_bounds ⟨1000, 500⟩ ⟨800, 800⟩
    (by norm_num) (by norm_num) (by norm_num) (by norm_num) (by norm_num) (by norm_num)

/-! ### Claim C7 -/

/-- C7 counterexample: at `frameSize.w = 2^53 + 3`, `imageSize.w = 1` the
float computation `int(fw/2 - iw/2)` yields `4503599627370498`, one more
than the claimed `trunc((fw - iw)/2) = 4503599627370497`. -/
theorem C7_centering_offset_counterexample :
    centering_offset ⟨1, 2⟩ ⟨9007199254740995, 2⟩ ⟨0, 0⟩ ≠
      add_pos ⟨0, 0⟩
        ⟨pyint (((9007199254740995 - 1 : Int) : ℚ) / 2),
         pyint (((2 - 2 : Int) : ℚ) / 2)⟩ := by
  have hdiv1 : fdiv ((9007199254740995 : Int) : ℚ) 2 = 4503599627370498 := by
    unfold fdiv
    rw [(by push_cast; norm_num : ((9007199254740995 : Int) : ℚ) = (9007199254740995:ℚ))]
    exact rd_key1
  have hdiv2 : fdiv ((1 : Int) : ℚ) 2 = 1 / 2 := by
    unfold fdiv
    have := roundDouble_half_int 1 (by norm_num) (by norm_num)
    push_cast at this ⊢
    exact this
  have hsub : fsub (4503599627370498 : ℚ) (1 / 2) = 4503599627370498 := by
    unfold fsub
    rw [(by norm_num : (4503599627370498:ℚ) - 1 / 2 = (9007199254740995:ℚ) / 2)]
    exact rd_key1
  have hx : (centering_offset ⟨1, 2⟩ ⟨9007199254740995, 2⟩ ⟨0, 0⟩).x = 4503599627370498 := by
    unfold centering_offset add_pos
    rw [(rfl : ((⟨9007199254740995, 2⟩ : Size)).w = (9007199254740995 : Int)),
      (rfl : ((⟨1, 2⟩ : Size)).w = (1 : Int))]
    rw [hdiv1, hdiv2, hsub]
    rw [(by push_cast; norm_num : (4503599627370498:ℚ) = ((4503599627370498 : Int) : ℚ)),
      pyint_intCast]
    norm_num
  have hy : (add_pos ⟨0, 0⟩
      ⟨pyint (((9007199254740995 - 1 : Int) : ℚ) / 2),
       pyint (((2 - 2 : Int) : ℚ) / 2)⟩).x = 4503599627370497 := by
    unfold add_pos
    rw [(by push_cast; norm_num : ((9007199254740995 - 1 : Int) : ℚ) / 2 =
      ((4503599627370497 : Int) : ℚ)), pyint_intCast]
    norm_num
  intro h
  rw [h, hy] at hx
  norm_num at hx

/-- C7 (amended): for components of magnitude below `2^52` (so that all
three float operations are exact), `centering_offset` equals `frame_offset`
plus the per-axis value `(frame_size - image_size) / 2` truncated toward
zero (`pyint`), and the omitted `frame_offset` defaults to `(0, 0)`; the
original unbounded claim fails at widths of magnitude `2^53`. -/
theorem C7_centering_offset_formula (image_size frame_size : Size) (frame_offset : Pos)
    (hfw : frame_size.w.natAbs < 2 ^ 52) (hfh : frame_size.h.natAbs < 2 ^ 52)
    (hiw : image_size.w.natAbs < 2 ^ 52) (hih : image_size.h.natAbs < 2 ^ 52) :
    centering_offset image_size frame_size frame_offset =
      add_pos frame_offset
        ⟨pyint (((frame_size.w - image_size.w : Int) : ℚ) / 2),
         pyint (((frame_size.h - image_size.h : Int) : ℚ) / 2)⟩ ∧
    centering_offset image_size frame_size =
      centering_offset image_size frame_size ⟨0, 0⟩ := by
  have key : ∀ f i : Int, f.natAbs < 2 ^ 52 → i.natAbs < 2 ^ 52 →
      fsub (fdiv (f : ℚ) 2) (fdiv (i : ℚ) 2) = ((f - i : Int) : ℚ) / 2 := by
    intro f i hf hi
    have h1 : fdiv (f:ℚ) 2 = (f:ℚ) / 2 := by
      unfold fdiv
      exact roundDouble_half_int' f (by have hf' := hf; norm_num at hf' ⊢; omega)
    have h2 : fdiv (i:ℚ) 2 = (i:ℚ) / 2 := by
      unfold fdiv
      exact roundDouble_half_int' i (by have hi' := hi; norm_num at hi' ⊢; omega)
    rw [h1, h2]
    unfold fsub
    rw [(by push_cast; ring : (f:ℚ) / 2 - (i:ℚ) / 2 = ((f - i : Int) : ℚ) / 2)]
    exact roundDouble_half_int' (f - i)
      (by have hf' := hf; have hi' := hi; norm_num at hf' hi' ⊢; omega)
  constructor
  · unfold centering_offset
    rw [key frame_size.w image_size.w hfw hiw, key frame_size.h image_size.h hfh hih]
  · rfl

/-- Witness for the amended C7 at small concrete sizes. -/
theorem C7_centering_offset_formula_witness :
    centering_offset ⟨6, 6⟩ ⟨3, 3⟩ ⟨5, 7⟩ =
      add_pos ⟨5, 7⟩
        ⟨pyint (((3 - 6 : Int) : ℚ) / 2), pyint (((3 - 6 : Int) : ℚ) / 2)⟩ ∧
    centering_offset ⟨6, 6⟩ ⟨3, 3⟩ = centering_offset ⟨6, 6⟩ ⟨3, 3⟩ ⟨0, 0⟩ :=
  C7_centering_offset_formula ⟨6, 6⟩ ⟨3, 3⟩ ⟨5, 7⟩
    (by norm_num) (by norm_num) (by norm_num) (by norm_num)

/-! ### Claims C3 and C9: name normalisation and uniqueness -/

theorem pyReplace_hws_of_bad {s : String}
    (h : ∃ c ∈ s.data, pyIsSpace c = true ∧ c ≠ ' ') :
    _has_whitespace (pyReplace s) = true := by
  obtain ⟨c, hc, hws, hne⟩ := h
  unfold _has_whitespace pyReplace
  rw [List.any_eq_true]
  have hmem : (if c = ' ' then '_' else c) ∈
      s.data.map (fun c => if c = ' ' then '_' else c) :=
    List.mem_map_of_mem _ hc
  rw [if_neg hne] at hmem
  exact ⟨c, hmem, hws⟩

theorem pyReplace_no_ws_of_good {s : String}
    (h : ∀ c ∈ s.data, pyIsSpace c = true → c = ' ') :
    _has_whitespace (pyReplace s) = false := by
  unfold _has_whitespace pyReplace
  rw [List.any_eq_false]
  intro x hx
  obtain ⟨c, hc, hfc⟩ := List.mem_map.mp hx
  by_cases h' : c = ' '
  · rw [h', if_pos rfl] at hfc
    rw [← hfc]
    decide
  · rw [if_neg h'] at hfc
    rw [← hfc]
    intro hws
    exact h' (h c hc hws)

theorem _replace_spaces_ok_of_good {s : String}
    (h : ∀ c ∈ s.data, pyIsSpace c = true → c = ' ') :
    _replace_spaces s = Except.ok (pyReplace s) := by
  unfold _replace_spaces
  rw [pyReplace_no_ws_of_good h]
  rfl

theorem _replace_spaces_error_of_bad {s : String}
    (h : ∃ c ∈ s.data, pyIsSpace c = true ∧ c ≠ ' ') :
    _replace_spaces s = Except.error "AssertionError" := by
  unfold _replace_spaces
  rw [pyReplace_hws_of_bad h]
  rfl

/-- If some remaining source has a raw name already seen, a normalised name
already seen, a name whose normalised form still contains whitespace, or
the remaining list itself contains a raw or normalised collision, the
uniqueness check raises. -/
theorem assertUniqueNamesGo_error :
    ∀ (l : List Source) (seen seenNS : List String),
      ((∃ s ∈ l, s.name ∈ seen ∨ pyReplace s.name ∈ seenNS ∨
          _has_whitespace (pyReplace s.name) = true) ∨
        ¬ l.Pairwise (fun a b => a.name ≠ b.name ∧ pyReplace a.name ≠ pyReplace b.name)) →
      ∃ e, assertUniqueNamesGo seen seenNS l = Except.error e := by
  intro l
  induction l with
  | nil =>
    intro seen seenNS h
    rcases h with ⟨s, hs, _⟩ | hnp
    · cases hs
    · exact absurd List.Pairwise.nil hnp
  | cons s t ih =>
    intro seen seenNS h
    by_cases hws : _has_whitespace (pyReplace s.name) = true
    · have hrs : _replace_spaces s.name = Except.error "AssertionError" := by
        unfold _replace_spaces
        rw [hws]
        rfl
      refine ⟨"AssertionError", ?_⟩
      simp only [assertUniqueNamesGo, hrs]
    · have hws' : _has_whitespace (pyReplace s.name) = false := by
        simpa using hws
      have hrs : _replace_spaces s.name = Except.ok (pyReplace s.name) := by
        unfold _replace_spaces
        rw [hws']
        rfl
      by_cases hseen : s.name ∈ seen
      · refine ⟨"Name not unique: " ++ s.name, ?_⟩
        simp only [assertUniqueNamesGo, hrs]
        rw [if_pos hseen]
      · by_cases hseenNS : pyReplace s.name ∈ seenNS
        · refine ⟨"Spaceless name not unique: " ++ pyReplace s.name, ?_⟩
          simp only [assertUniqueNamesGo, hrs]
          rw [if_neg hseen, if_pos hseenNS]
        · have hstep : assertUniqueNamesGo seen seenNS (s :: t) =
              assertUniqueNamesGo (s.name :: seen) (pyReplace s.name :: seenNS) t := by
            simp only [assertUniqueNamesGo, hrs]
            rw [if_neg hseen, if_neg hseenNS]
          rw [hstep]
          apply ih
          rcases h with ⟨x, hx, hcase⟩ | hnp
          · rcases List.mem_cons.mp hx with hxs | hxt
            · subst hxs
              rcases hcase with h1 | h2 | h3
              · exact absurd h1 hseen
              · exact absurd h2 hseenNS
              · exact absurd h3 hws
            · left
              refine ⟨x, hxt, ?_⟩
              exact Or.imp (List.mem_cons_of_mem _)
                (Or.imp (List.mem_cons_of_mem _) id) hcase
          · by_cases hpt : t.Pairwise
                (fun a b => a.name ≠ b.name ∧ pyReplace a.name ≠ pyReplace b.name)
            · have hnall : ¬ ∀ b ∈ t, s.name ≠ b.name ∧ pyReplace s.name ≠ pyReplace b.name :=
                fun hall => hnp (List.pairwise_cons.mpr ⟨hall, hpt⟩)
              push_neg at hnall
              obtain ⟨b, hb, hRb⟩ := hnall
              left
              refine ⟨b, hb, ?_⟩
              by_cases hname : s.name = b.name
              · exact Or.inl (hname ▸ List.mem_cons_self _ _)
              · exact Or.inr (Or.inl ((hRb hname) ▸ List.mem_cons_self _ _))
            · exact Or.inr hpt

theorem _assert_unique_names_error {sources : List Source}
    (h : ¬ sources.Pairwise
          (fun a b => a.name ≠ b.name ∧ pyReplace a.name ≠ pyReplace b.name) ∨
        ∃ s ∈ sources, _has_whitespace (pyReplace s.name) = true) :
    ∃ e, _assert_unique_names sources = Except.error e := by
  apply assertUniqueNamesGo_error
  rcases h with h | ⟨s, hs, hws⟩
  · exact Or.inr h
  · exact Or.inl ⟨s, hs, Or.inr (Or.inr hws)⟩

theorem downlinxInitChecks_error {sources : List Source}
    (h : ∃ e, _assert_unique_names sources = Except.error e) :
    ∃ e, downlinxInitChecks sources = Except.error e := by
  obtain ⟨e, he⟩ := h
  refine ⟨e, ?_⟩
  unfold downlinxInitChecks
  rw [he]

/-- C3: catalog construction fails with an error whenever two sources have
equal names, or names that become equal after whitespace-to-underscore
normalisation (`pyReplace`); no `get` is possible because `__init__` raises. -/
theorem C3_unique_names_enforced (sources : List Source)
    (h : ∃ i j : Fin sources.length, i < j ∧
        ((sources.get i).name = (sources.get j).name ∨
         pyReplace (sources.get i).name = pyReplace (sources.get j).name)) :
    ∃ e, downlinxInitChecks sources = Except.error e := by
  apply downlinxInitChecks_error
  apply _assert_unique_names_error
  left
  intro hp
  obtain ⟨i, j, hij, hcol⟩ := h
  have hr := (List.pairwise_iff_get.mp hp) i j hij
  rcases hcol with h1 | h2
  · exact hr.1 h1
  · exact hr.2 h2

/-- Witness for C3: a catalog containing `"A B"` and `"A_B"` fails to
construct. -/
theorem C3_unique_names_enforced_witness :
    ∃ e, downlinxInitChecks [⟨"A B", [], 60⟩, ⟨"A_B", [], 60⟩] = Except.error e :=
  C3_unique_names_enforced [⟨"A B", [], 60⟩, ⟨"A_B", [], 60⟩]
    ⟨⟨0, by decide⟩, ⟨1, by decide⟩, by decide, Or.inr (by decide)⟩

/-- C9: `_replace_spaces` replaces the literal space character with an
underscore and returns the result when the name's whitespace is only
spaces; a name containing any other whitespace character makes
`_replace_spaces` raise an assertion failure, so catalog loading and `get`
fail for such names instead of normalising them. -/
theorem C9_replace_spaces_behaviour :
    (∀ name : String, (∀ c ∈ name.data, pyIsSpace c = true → c = ' ') →
      _replace_spaces name = Except.ok (pyReplace name)) ∧
    (∀ name : String, (∃ c ∈ name.data, pyIsSpace c = true ∧ c ≠ ' ') →
      _replace_spaces name = Except.error "AssertionError") ∧
    (∀ sources : List Source,
      (∃ s ∈ sources, ∃ c ∈ s.name.data, pyIsSpace c = true ∧ c ≠ ' ') →
      ∃ e, downlinxInitChecks sources = Except.error e) ∧
    (∀ (sources : List Source) (st : Pipeline) (source_name size : String)
        (mtime : Option Int) (now : Int),
      (∃ c ∈ source_name.data, pyIsSpace c = true ∧ c ≠ ' ') →
      ∃ e, get sources st source_name size mtime now = Except.error e) := by
  refine ⟨?_, ?_, ?_, ?_⟩
  · intro name h
    exact _replace_spaces_ok_of_good h
  · intro name h
    exact _replace_spaces_error_of_bad h
  · intro sources h
    apply downlinxInitChecks_error
    apply _assert_unique_names_error
    right
    obtain ⟨s, hs, hbad⟩ := h
    exact ⟨s, hs, pyReplace_hws_of_bad hbad⟩
  · intro sources st source_name size mtime now h
    refine ⟨"AssertionError", ?_⟩
    unfold get
    rw [_replace_spaces_error_of_bad h]

/-- Witness for C9: a space-only name normalises, a tab makes the assert
fire. -/
theorem C9_replace_spaces_behaviour_witness :
    _replace_spaces "A B" = Except.ok (pyReplace "A B") ∧
    _replace_spaces "A\tB" = Except.error "AssertionError" :=
  ⟨C9_replace_spaces_behaviour.1 "A B" (by decide),
   C9_replace_spaces_behaviour.2.1 "A\tB" (by decide)⟩

/-! ### Claim C4: unknown source name -/

/-- C4: for every source name not present in the catalog, `get` raises an
error (whatever the cache state) and never returns an `Image`: `_source`
returns `None` and Python's `source['interval']` / `source['url']` both
raise `TypeError` on `None`. -/
theorem C4_unknown_source_errors (sources : List Source) (st : Pipeline)
    (source_name size : String) (mtime : Option Int) (now : Int)
    (habs : ∀ s ∈ sources, s.name ≠ source_name) :
    ∃ e, get sources st source_name size mtime now = Except.error e := by
  have hsrc : _source sources source_name = none := by
    unfold _source
    rw [List.find?_eq_none]
    intro s hs
    simpa using habs s hs
  cases hrs : _replace_spaces source_name with
  | error e =>
    refine ⟨e, ?_⟩
    simp only [get, hrs]
  | ok ns =>
    cases hw : _has_whitespace (_image_path st (ns ++ "_" ++ size ++ ".jpg")) with
    | true =>
      refine ⟨"AssertionError", ?_⟩
      simp [get, hrs, hw]
    | false =>
      cases mtime with
      | some t =>
        refine ⟨"TypeError: NoneType is not subscriptable", ?_⟩
        simp [get, hrs, hw, hsrc]
      | none =>
        refine ⟨"TypeError: NoneType is not subscriptable", ?_⟩
        simp [get, hrs, hw, hsrc, getDownload]

/-- Witness for C4 at a concrete one-source catalog and absent name. -/
theorem C4_unknown_source_errors_witness :
    ∃ e, get [⟨"X", [("large", "u.jpg")], 100⟩] ⟨"p/images", 0⟩ "Nope" "large"
      none 0 = Except.error e :=
  C4_unknown_source_errors [⟨"X", [("large", "u.jpg")], 100⟩] ⟨"p/images", 0⟩
    "Nope" "large" none 0 (by decide)

/-! ### Claim C6: unknown size label -/

/-- C6 counterexample: source "X" is known, size label "small" is absent
from its URL mapping, yet `get` returns the 10-second-old cached file
(interval 100) and raises no key-lookup failure, because the cache check
runs before the URL lookup. -/
theorem C6_counterexample :
    dictGet [("large", "u.jpg")] "small" = none ∧
    get [⟨"X", [("large", "u.jpg")], 100⟩] ⟨"p/images", 0⟩ "X" "small" (some 0) 10 =
      Except.ok (⟨"p/images", 0⟩, ⟨none, ⟨"p/images/X_small.jpg"⟩⟩) :=
  ⟨rfl, rfl⟩

/-- C6 amended: when `get` reaches the download step (no cached file, or
computed age at least the interval) and the size label is absent from the
known source's URL mapping, `get` raises a `KeyError`. -/
theorem C6_unknown_size_keyerror (sources : List Source) (st : Pipeline)
    (source_name size ns : String) (mtime : Option Int) (now : Int) (src : Source)
    (hns : _replace_spaces source_name = Except.ok ns)
    (hw : _has_whitespace (_image_path st (ns ++ "_" ++ size ++ ".jpg")) = false)
    (hsrc : _source sources source_name = some src)
    (hurl : dictGet src.url size = none)
    (hcache : mtime = none ∨ ∃ t, mtime = some t ∧ src.interval ≤ (now - t) % 86400) :
    get sources st source_name size mtime now =
      Except.error ("KeyError: " ++ size) := by
  rcases hcache with hmt | ⟨t, hmt, hage⟩
  · subst hmt
    simp [get, hns, hw, hsrc, getDownload, hurl]
  · subst hmt
    have hnotlt : ¬ ((now - t) % 86400 < src.interval) := not_lt.mpr hage
    simp [get, hns, hw, hsrc, hnotlt, getDownload, hurl]

/-- Witness for the amended C6: no cache file, unknown label "small". -/
theorem C6_unknown_size_keyerror_witness :
    get [⟨"X", [("large", "u.jpg")], 100⟩] ⟨"p/images", 0⟩ "X" "small" none 0 =
      Except.error ("KeyError: " ++ "small") :=
  C6_unknown_size_keyerror [⟨"X", [("large", "u.jpg")], 100⟩] ⟨"p/images", 0⟩
    "X" "small" "X" none 0 ⟨"X", [("large", "u.jpg")], 100⟩
    rfl rfl rfl rfl (Or.inl rfl)

/-! ### Claim C1: freshness check -/

/-- C1 (code bug): the source computes the cache file's age as
`(now - modification_time).seconds`, the seconds field of the timedelta,
which discards whole days.  With the cached file 86460 seconds
(1 day + 60 s) old and a 300-second refresh interval, the claim requires a
fresh download, but `get` computes age 60, keeps the stale cached file and
downloads nothing. -/
theorem C1_age_modulo_day_bug :
    (300 : Int) ≤ 86460 ∧
    get [⟨"GOES", [("large", "http://x/a.jpg")], 300⟩] ⟨"p/images", 0⟩
      "GOES" "large" (some 0) 86460 =
      Except.ok (⟨"p/images", 0⟩, ⟨none, ⟨"p/images/GOES_large.jpg"⟩⟩) :=
  ⟨by decide, rfl⟩

/-! ### Claim C10: get does not touch the counter -/

/-- Any successful `get` returns the pipeline state it was given. -/
theorem get_ok_state {sources : List Source} {st : Pipeline}
    {source_name size : String} {mtime : Option Int} {now : Int}
    {p : Pipeline × GetResult}
    (h : get sources st source_name size mtime now = Except.ok p) : p.1 = st := by
  unfold get getDownload at h
  split at h
  · cases h
  · split at h
    · cases h
    · split at h
      · split at h
        · cases h
        · split at h
          · cases h
            rfl
          · split at h
            · cases h
            · split at h
              · cases h
              · cases h
                rfl
      · split at h
        · cases h
        · split at h
          · cases h
          · cases h
            rfl

/-- C10: a successful `get` never changes the generated-image counter
(whether it downloaded or returned the cached file), while each of the five
transform operations increments it by exactly one. -/
theorem C10_get_preserves_counter :
    (∀ (sources : List Source) (st : Pipeline) (source_name size : String)
        (mtime : Option Int) (now : Int) (st2 : Pipeline) (r : GetResult),
      get sources st source_name size mtime now = Except.ok (st2, r) →
      st2.generated_image_count = st.generated_image_count) ∧
    (∀ (st : Pipeline) (op : PipeOp) (r : OpResult),
      applyOp st op = Except.ok r →
      r.state.generated_image_count = st.generated_image_count + 1) := by
  constructor
  · intro sources st source_name size mtime now st2 r h
    have := get_ok_state h
    rw [show (st2, r).1 = st2 from rfl] at this
    rw [this]
  · intro st op r h
    rw [(applyOp_ok h).1]

/-- Witness for C10: a concrete cache-hit `get` and a concrete `to_jpg`. -/
theorem C10_get_preserves_counter_witness :
    (⟨"p/images", 0⟩ : Pipeline).generated_image_count =
      (⟨"p/images", 0⟩ : Pipeline).generated_image_count ∧
    (⟨"p", 1⟩ : Pipeline).generated_image_count =
      (⟨"p", 0⟩ : Pipeline).generated_image_count + 1 :=
  ⟨C10_get_preserves_counter.1 [⟨"X", [("large", "u.jpg")], 100⟩] ⟨"p/images", 0⟩
      "X" "large" (some 0) 10 ⟨"p/images", 0⟩ ⟨none, ⟨"p/images/X_large.jpg"⟩⟩ rfl,
   C10_get_preserves_counter.2 ⟨"p", 0⟩ (PipeOp.toJpgOp ⟨"x.png"⟩)
      ⟨⟨"p", 1⟩, "generated0.jpg", "p/generated0.jpg",
        ["convert", "x.png", "p/generated0.jpg"]⟩ rfl⟩

/-! ### Claim C8: lossless intermediates -/

theorem _new_suffix {st : Pipeline} {t : String} {n : NewResult}
    (h : _new st t = Except.ok n) :
    ∃ pre, n.filepath = pre ++ ("." ++ t) := by
  obtain ⟨_, h2, h3⟩ := _new_ok h
  refine ⟨st.images_dir ++ "/" ++ ("generated" ++ pyStr st.generated_image_count), ?_⟩
  rw [h3, h2]
  unfold _image_path
  simp [String.append_assoc]

/-- C8: crop, blank, place and resize each allocate a `.png` output path and
pass `MAGICK_PNG_COLOR` (`-define png:color-type=6`) immediately before the
output path in the external-tool command; only `to_jpg` produces a `.jpg`
output, and its command is bare format conversion with no such directive. -/
theorem C8_lossless_png_color :
    (∀ (st : Pipeline) (image : Image) (offset : Pos) (size : Size) (r : OpResult),
      crop st image offset size = Except.ok r →
      (∃ pre, r.out_path = pre ++ ".png") ∧
      ∃ args, r.cmd = args ++ MAGICK_PNG_COLOR ++ [r.out_path]) ∧
    (∀ (st : Pipeline) (color : String) (size : Size) (r : OpResult),
      blank st color size = Except.ok r →
      (∃ pre, r.out_path = pre ++ ".png") ∧
      ∃ args, r.cmd = args ++ MAGICK_PNG_COLOR ++ [r.out_path]) ∧
    (∀ (st : Pipeline) (new base : Image) (offset : Pos) (r : OpResult),
      place st new offset base = Except.ok r →
      (∃ pre, r.out_path = pre ++ ".png") ∧
      ∃ args, r.cmd = args ++ MAGICK_PNG_COLOR ++ [r.out_path]) ∧
    (∀ (st : Pipeline) (image : Image) (size : Size) (r : OpResult),
      resize st image size = Except.ok r →
      (∃ pre, r.out_path = pre ++ ".png") ∧
      ∃ args, r.cmd = args ++ MAGICK_PNG_COLOR ++ [r.out_path]) ∧
    (∀ (st : Pipeline) (image : Image) (r : OpResult),
      to_jpg st image = Except.ok r →
      (∃ pre, r.out_path = pre ++ ".jpg") ∧
      r.cmd = ["convert", image.filepath, r.out_path]) := by
  refine ⟨?_, ?_, ?_, ?_, ?_⟩
  · intro st image offset size r h
    unfold crop at h
    cases hn : _new st "png" <;> rw [hn] at h
    · cases h
    · cases h
      exact ⟨_new_suffix hn, ⟨_, rfl⟩⟩
  · intro st color size r h
    unfold blank at h
    cases hn : _new st "png" <;> rw [hn] at h
    · cases h
    · cases h
      exact ⟨_new_suffix hn, ⟨_, rfl⟩⟩
  · intro st new base offset r h
    unfold place at h
    cases hn : _new st "png" <;> rw [hn] at h
    · cases h
    · cases h
      exact ⟨_new_suffix hn, ⟨_, rfl⟩⟩
  · intro st image size r h
    unfold resize at h
    cases hn : _new st "png" <;> rw [hn] at h
    · cases h
    · cases h
      exact ⟨_new_suffix hn, ⟨_, rfl⟩⟩
  · intro st image r h
    unfold to_jpg at h
    cases hn : _new st "jpg" <;> rw [hn] at h
    · cases h
    · cases h
      exact ⟨_new_suffix hn, rfl⟩

/-- Witness for C8: a concrete blank and a concrete to_jpg. -/
theorem C8_lossless_png_color_witness :
    ((∃ pre, ("p/generated0.png" : String) = pre ++ ".png") ∧
      ∃ args, ["convert", "-size", "4x4", "canvas:black", "-define",
        "png:color-type=6", "p/generated0.png"] =
        args ++ MAGICK_PNG_COLOR ++ ["p/generated0.png"]) ∧
    ((∃ pre, ("p/generated0.jpg" : String) = pre ++ ".jpg") ∧
      ["convert", "x.png", "p/generated0.jpg"] =
        ["convert", "x.png", "p/generated0.jpg"]) :=
  ⟨C8_lossless_png_color.2.1 ⟨"p", 0⟩ "black" ⟨4, 4⟩
      ⟨⟨"p", 1⟩, "generated0.png", "p/generated0.png",
        ["convert", "-size", "4x4", "canvas:black", "-define",
          "png:color-type=6", "p/generated0.png"]⟩ rfl,
   C8_lossless_png_color.2.2.2.2 ⟨"p", 0⟩ ⟨"x.png"⟩
      ⟨⟨"p", 1⟩, "generated0.jpg", "p/generated0.jpg",
        ["convert", "x.png", "p/generated0.jpg"]⟩ rfl⟩

end Downlinx
